import Mathlib

/-!
Shallow embedding of the pq-ts priority-queue library.

Source files embedded here:
* `src/primitive.ts` — index arithmetic (`parent`, `child`), the sift
  primitives (`up`, `upWithPriorities`, `down`, `downWithPriorities`,
  `heapify`) and the growth routine `growTyped`;
* `src/pq.ts` — the node-based `PriorityQueue` (object nodes);
* `typed.pq.ts` — the flat `TypedPriorityQueue` (parallel numeric arrays);
* `src/stable.typed.pq.ts` — the `StableTypedPriorityQueue` (parallel
  numeric arrays plus a stability-index array).

Modelling conventions:
* JS arrays are Lean lists; an array hole or an explicitly stored
  `undefined` is `none` in a `List (Option _)`; typed arrays are
  `List Int` (all inputs used in this development are in range for the
  concrete numeric backends, so element coercion is not modelled).
* Operations that can raise a JS exception (`TypeError` from a property
  access on `undefined`, `RangeError` from `TypedArray.set`) return
  `Option`, with `none` as the exceptional outcome.
* Loops are structural recursions over an explicit fuel argument chosen
  at each call site to dominate the loop count, so every definition is
  kernel-computable.
* Queue priorities are `Int`; the JS dynamic type of the `priority`
  argument of the node-based `enqueue` is modelled by `JsArg` where the
  distinction between genuine numbers, `NaN` and non-numbers matters.
-/

namespace PqTs

/-- 32-bit two's-complement wrap of an integer, as performed by the
`ToInt32` coercion of the JS shift operators. -/
def toInt32 (n : Int) : Int := (n + 2 ^ 31) % 2 ^ 32 - 2 ^ 31

/-- Embeds `parent` of `src/primitive.ts`: `(index - 1) >> LOG2_ARITY`
with `LOG2_ARITY = 2`.  The JS `>>` first wraps its operand to a signed
32-bit integer and then arithmetically shifts, i.e. floor-divides by 4. -/
def jsParent (index : Int) : Int := Int.fdiv (toInt32 (index - 1)) 4

/-- Embeds `child` of `src/primitive.ts`: `(index << LOG2_ARITY) + i + 1`.
The JS `<<` wraps its operand and its result to signed 32-bit range. -/
def jsChild (index i : Int) : Int := toInt32 (4 * toInt32 index) + i + 1

/-- Parent index in the exact quotient form `⌊(i-1)/4⌋` used by the queue
operations below; `jsParent_eq_parentN` inside `C9` records the index
range on which this agrees with the int32 shift arithmetic of the source. -/
def parentN (i : Nat) : Nat := (i - 1) / 4

/-- First-child index `4*i + 1` in exact arithmetic. -/
def childN (i : Nat) : Nat := 4 * i + 1

/-- Embeds the capacity computation shared by `PriorityQueue._grow`
(`src/pq.ts`, constants `GROW_FACTOR = 2`, `MINIMUM_GROW = 4`,
`MAX_SIZE = 2^32 - 1`) and `growTyped` (`src/primitive.ts`, same
defaults): double, cap the doubled value, raise to `len + 4`, then raise
to `minCapacity`. -/
def growCapacity (len minCapacity : Nat) : Nat :=
  let n1 := 2 * len
  let n2 := if n1 > 2 ^ 32 - 1 then 2 ^ 32 - 1 else n1
  let n3 := max n2 (len + 4)
  if n3 < minCapacity then minCapacity else n3

/-- Embeds `TypedArray.prototype.set(source)`: copies `source` into the
front of `target`, throwing a `RangeError` (here `none`) when the source
is longer than the target. -/
def typedSet (target source : List Int) : Option (List Int) :=
  if source.length ≤ target.length then
    some (source ++ target.drop source.length)
  else none

/-- Embeds `growTyped` of `src/primitive.ts` with its default arguments:
allocate a zero-filled array of the grown capacity and copy the old
elements into its front. -/
def growTypedList (l : List Int) (minCapacity : Nat) : Option (List Int) :=
  typedSet (List.replicate (growCapacity l.length minCapacity) 0) l

/-- The IEEE-754 double `Number.MAX_VALUE`, the sentinel of `priorityAt`. -/
def maxValue : Int := 2 ^ 1024 - 2 ^ 971

/-! ### Node-based engine (`src/pq.ts`) -/

/-- Heap entry of the node-based engine: `{ value, priority, nindex }`. -/
structure BNode where
  value : Int
  priority : Int
  nindex : Nat
deriving DecidableEq, Repr

/-- Default comparator of `PriorityQueue`: `(a, b) => a.priority - b.priority`. -/
def cmpB (a b : BNode) : Int := a.priority - b.priority

/-- State of a `PriorityQueue` with the default comparator: the backing
array (`none` = hole or stored `undefined`) and the logical size. -/
structure BQueue where
  elements : List (Option BNode)
  size : Nat
deriving DecidableEq, Repr

/-- Embeds `up` of `src/primitive.ts` at the default comparator: walk
ancestors of `index`, moving each parent down while the inserted node
sorts strictly before it, then write the node.  Fuel dominates the
ancestor count; reading an `undefined` parent throws in JS (the
comparator dereferences it), hence `none`. -/
def upB : Nat → List (Option BNode) → BNode → Nat → Option (List (Option BNode))
  | _, es, node, 0 => some (es.set 0 (some node))
  | 0, _, _, _ + 1 => none
  | fuel + 1, es, node, i + 1 => do
    let p ← es.getD (parentN (i + 1)) none
    if cmpB node p ≥ 0 then some (es.set (i + 1) (some node))
    else upB fuel (es.set (i + 1) (some p)) node (parentN (i + 1))

/-- One candidate step of the minimum-child scan of `down`: consider
index `i` if it is below `size`. -/
def bestChildStepB (es : List (Option BNode)) (size : Nat)
    (best : Nat × BNode) (i : Nat) : Option (Nat × BNode) :=
  if i < size then do
    let n ← es.getD i none
    if cmpB n best.2 < 0 then some (i, n) else some best
  else some best

/-- The minimum child among indices `c, c+1, c+2, c+3` below `size`
(`ARITY = 4`), as scanned by `down` of `src/primitive.ts`. -/
def bestChildB (es : List (Option BNode)) (size c : Nat) : Option (Nat × BNode) := do
  let m0 ← es.getD c none
  let b1 ← bestChildStepB es size (c, m0) (c + 1)
  let b2 ← bestChildStepB es size b1 (c + 2)
  bestChildStepB es size b2 (c + 3)

/-- Embeds `down` of `src/primitive.ts` at the default comparator: while
the first child index is below `size`, find the minimum child, stop if
the node already sorts before-or-equal to it, otherwise move that child
up and continue from its slot.  `down` rewrites the occupied slot with a
copy of the node carrying the destination `nindex`. -/
def downB : Nat → List (Option BNode) → Nat → BNode → Nat → Option (List (Option BNode))
  | 0, _, _, _, _ => none
  | fuel + 1, es, size, node, i =>
    if childN i < size then do
      let best ← bestChildB es size (childN i)
      if cmpB { node with nindex := i } best.2 ≤ 0 then
        some (es.set i (some { node with nindex := i }))
      else
        downB fuel (es.set i (some { best.2 with nindex := best.1 })) size node best.1
    else some (es.set i (some { node with nindex := i }))

/-- Embeds `heapify` of `src/primitive.ts`: sift down every index from
`parent(size - 1)` to `0`.  In JS the loop bound is computed with signed
arithmetic, so sizes `0` and `1` produce a negative bound and no
iterations. -/
def heapifyB (es : List (Option BNode)) (size : Nat) : Option (List (Option BNode)) :=
  if size ≤ 1 then some es
  else
    (List.range (parentN (size - 1) + 1)).reverse.foldlM
      (fun acc i => do
        let node ← acc.getD i none
        downB (size + 1) acc size node i)
      es

/-- Embeds `PriorityQueue._grow`: `this._elements.length = newCapacity`
extends the backing array with holes. -/
def growB (es : List (Option BNode)) (minCapacity : Nat) : List (Option BNode) :=
  es ++ List.replicate (growCapacity es.length minCapacity - es.length) none

/-- Embeds `PriorityQueue.enqueue` after its `typeof` guard: grow when
full, then sift the node `{ value, priority, nindex: currentSize }` up
from slot `currentSize` and increment the size. -/
def enqueueB (q : BQueue) (value priority : Int) : Option BQueue := do
  let cs := q.size
  let es := if q.elements.length = cs then growB q.elements (cs + 1) else q.elements
  let es' ← upB (cs + 1) es ⟨value, priority, cs⟩ cs
  some ⟨es', cs + 1⟩

/-- JS dynamic value passed as the `priority` argument of the node-based
`enqueue`: a genuine number, `NaN` (whose `typeof` is still "number"),
or a non-number. -/
inductive JsArg where
  | num (x : Int)
  | nan
  | notNum
deriving DecidableEq, Repr

/-- The JS test `typeof priority === "number"`. -/
def typeofIsNumber : JsArg → Bool
  | .notNum => false
  | _ => true

/-- Embeds `PriorityQueue.enqueue` including its guard
`if (typeof priority !== "number") return false`.  The first component
is the returned boolean.  A `NaN` priority passes the guard and the call
returns `true`; the resulting state stores a `NaN` priority and is not
representable in this `Int`-priority model, hence `none` there. -/
def enqueueBJs (q : BQueue) (value : Int) (priority : JsArg) : Bool × Option BQueue :=
  match priority with
  | .notNum => (false, some q)
  | .num x => (true, enqueueB q value x)
  | .nan => (true, none)

/-- Embeds `PriorityQueue.removeRootNode`: decrement the size, and if
entries remain, sift the last entry down from the root (the `_down`
closure reads the already decremented `this._size`), then store
`undefined` in the vacated last slot. -/
def removeRootNodeB (q : BQueue) : Option BQueue :=
  if q.size = 0 then some q
  else
    let lastIdx := q.size - 1
    (if lastIdx > 0 then do
      let lastNode ← q.elements.getD lastIdx none
      downB (lastIdx + 1) q.elements lastIdx lastNode 0
    else some q.elements).map
      fun es => ⟨es.set lastIdx none, lastIdx⟩

/-- Embeds `PriorityQueue.pop`: capture the root slot (no property access,
so an `undefined` root is simply returned) and remove it. -/
def popB (q : BQueue) : Option (Option BNode × BQueue) :=
  if q.size = 0 then some (none, q)
  else do
    let el := q.elements.getD 0 none
    let q' ← removeRootNodeB q
    some (el, q')

/-- Embeds `PriorityQueue.dequeue`: `this.pop()?.value`. -/
def dequeueB (q : BQueue) : Option (Option Int × BQueue) := do
  let (n, q') ← popB q
  some (n.map BNode.value, q')

/-- Drains a queue by repeated `pop`, collecting the popped nodes; fuel
is the queue size at the first call. -/
def drainB : Nat → BQueue → Option (List (Option BNode))
  | 0, _ => some []
  | fuel + 1, q =>
    if q.size = 0 then some []
    else do
      let (el, q') ← popB q
      let rest ← drainB fuel q'
      some (el :: rest)

/-- Embeds the scan `this._elements.findIndex((node) => comparer(node.value, value))`
of `PriorityQueue.remove` with the default equality: `findIndex` visits
every slot of the backing array, and the callback dereferences
`node.value`, so the first hole or stored `undefined` reached before a
match raises a `TypeError` (`none`); inner `none` means "not found". -/
def findIndexRemoveB (es : List (Option BNode)) (value : Int) : Option (Option Nat) :=
  go es 0
where
  go : List (Option BNode) → Nat → Option (Option Nat)
    | [], _ => some none
    | none :: _, _ => none
    | some n :: rest, i => if n.value = value then some (some i) else go rest (i + 1)

/-- Embeds `PriorityQueue.remove` with the default equality comparer:
locate the first match, decrement the size, and if the match is not the
last logical entry sift the last entry from the vacated slot — down when
it sorts strictly before the removed entry, up otherwise — then
`Array.prototype.pop` the final slot of the backing array. -/
def removeB (q : BQueue) (value : Int) : Option (Bool × BQueue) := do
  let idx? ← findIndexRemoveB q.elements value
  match idx? with
  | none => some (false, q)
  | some index => do
    let removed ← q.elements.getD index none
    let newSize := q.size - 1
    let es ←
      if index < newSize then do
        let lastNode ← q.elements.getD newSize none
        if cmpB lastNode removed < 0 then
          downB (newSize + 1) q.elements newSize lastNode index
        else
          upB (index + 1) q.elements lastNode index
      else some q.elements
    some (true, ⟨es.dropLast, newSize⟩)

/-- Embeds the storage-order branch of `PriorityQueue.indexOf`: the
callback `(node) => node && comparer(node.value, value)` skips holes, so
this scan never throws; `-1` when absent. -/
def indexOfStoreB (es : List (Option BNode)) (value : Int) : Int :=
  go es 0
where
  go : List (Option BNode) → Nat → Int
    | [], _ => -1
    | none :: rest, i => go rest (i + 1)
    | some n :: rest, i => if n.value = value then (i : Int) else go rest (i + 1)

/-- Embeds `PriorityQueue.clone`, i.e. `new PriorityQueue(this, this.compare)`:
copy the backing array and size, then `heapify` the copy (the copy
constructor always ends with `this._heapify(this._size)`). -/
def cloneB (q : BQueue) : Option BQueue := do
  let es ← heapifyB q.elements q.size
  some ⟨es, q.size⟩

/-- Dequeue loop of the `dequeue = true` branch of `PriorityQueue.indexOf`. -/
def indexOfLoopB : Nat → BQueue → Int → Nat → Option Int
  | 0, q, _, _ => if q.size = 0 then some (-1) else none
  | fuel + 1, q, value, index =>
    if q.size = 0 then some (-1)
    else do
      let (n, q') ← dequeueB q
      if n = some value then some (index : Int)
      else indexOfLoopB fuel q' value (index + 1)

/-- Embeds `PriorityQueue.indexOf`. -/
def indexOfB (q : BQueue) (value : Int) (dequeue : Bool) : Option Int :=
  if !dequeue then some (indexOfStoreB q.elements value)
  else do
    let c ← cloneB q
    indexOfLoopB c.size c value 0

/-- Pop loop of the `dequeue = true` branch of `PriorityQueue.priorityAt`:
`while (!clone.isEmpty()) { const node = clone.pop(); if (i-- === 0) ... }`. -/
def priorityAtLoopB : Nat → BQueue → Int → Option Int
  | 0, q, _ => if q.size = 0 then some maxValue else none
  | fuel + 1, q, i =>
    if q.size = 0 then some maxValue
    else do
      let (n, q') ← popB q
      if i = 0 then some ((n.map BNode.priority).getD maxValue)
      else priorityAtLoopB fuel q' (i - 1)

/-- Embeds `PriorityQueue.priorityAt`: sentinel for out-of-range indices,
direct storage read when `!dequeue || index === 0` (the root bypasses the
clone-and-drain path), otherwise clone and pop `index + 1` times. -/
def priorityAtB (q : BQueue) (index : Nat) (dequeue : Bool) : Option Int :=
  if index ≥ q.size then some maxValue
  else if !dequeue || index = 0 then
    (q.elements.getD index none).map BNode.priority
  else do
    let c ← cloneB q
    priorityAtLoopB c.size c (index : Int)

/-! ### Flat typed engine (`typed.pq.ts`) -/

/-- Heap entry view of the flat engine: `{ value, priority, nindex }`
materialised from the parallel arrays. -/
structure TNode where
  value : Int
  priority : Int
  nindex : Nat
deriving DecidableEq, Repr

/-- Default comparator of `TypedPriorityQueue`:
`(a, b) => a.priority - b.priority`. -/
def cmpT (a b : TNode) : Int := a.priority - b.priority

/-- State of a `TypedPriorityQueue`: parallel element and priority arrays
of equal allocated length, the logical size, and the constructor's
initial capacity `_defaultSize` (used again by `clone`). -/
structure TQueue where
  elements : List Int
  priorities : List Int
  size : Nat
  defaultSize : Nat
deriving DecidableEq, Repr

/-- Embeds `upWithPriorities` of `src/primitive.ts` at `TNode`: the
parent view is `{ ...node, value, priority, nindex }` read from both
arrays; a move writes both arrays.  Out-of-range reads propagate as
`none`. -/
def upT : Nat → List Int → List Int → TNode → Nat → Option (List Int × List Int)
  | _, es, ps, node, 0 => some (es.set 0 node.value, ps.set 0 node.priority)
  | 0, _, _, _, _ + 1 => none
  | fuel + 1, es, ps, node, i + 1 => do
    let pIdx := parentN (i + 1)
    let pv ← es.get? pIdx
    let pp ← ps.get? pIdx
    let parentNode : TNode := { node with value := pv, priority := pp, nindex := pIdx }
    if cmpT node parentNode ≥ 0 then
      some (es.set (i + 1) node.value, ps.set (i + 1) node.priority)
    else
      upT fuel (es.set (i + 1) parentNode.value) (ps.set (i + 1) parentNode.priority)
        node parentNode.nindex

/-- One candidate step of the minimum-child scan of `downWithPriorities`
at `TNode`; the comparisons view both candidates as `{ ...node, ... }`. -/
def bestChildStepT (es ps : List Int) (node : TNode) (size : Nat)
    (best : Nat × Int × Int) (i : Nat) : Option (Nat × Int × Int) :=
  if i < size then do
    let v ← es.get? i
    let p ← ps.get? i
    if cmpT { node with value := v, priority := p, nindex := i }
        { node with value := best.2.1, priority := best.2.2, nindex := best.1 } < 0 then
      some (i, v, p)
    else some best
  else some best

/-- Minimum child among indices `c .. c+3` below `size`, for the flat
engine. -/
def bestChildT (es ps : List Int) (node : TNode) (size c : Nat) :
    Option (Nat × Int × Int) := do
  let v0 ← es.get? c
  let p0 ← ps.get? c
  let b1 ← bestChildStepT es ps node size (c, v0, p0) (c + 1)
  let b2 ← bestChildStepT es ps node size b1 (c + 2)
  bestChildStepT es ps node size b2 (c + 3)

/-- Embeds `downWithPriorities` of `src/primitive.ts` at `TNode`: moves
touch the element and priority arrays only. -/
def downT : Nat → List Int → List Int → Nat → TNode → Nat → Option (List Int × List Int)
  | 0, _, _, _, _, _ => none
  | fuel + 1, es, ps, size, node, i =>
    if childN i < size then do
      let best ← bestChildT es ps node size (childN i)
      if cmpT { node with nindex := i }
          { node with value := best.2.1, priority := best.2.2, nindex := best.1 } ≤ 0 then
        some (es.set i node.value, ps.set i node.priority)
      else
        downT fuel (es.set i best.2.1) (ps.set i best.2.2) size node best.1
    else some (es.set i node.value, ps.set i node.priority)

/-- Embeds the `TypedPriorityQueue` constructor
`new TypedPriorityQueue(backend, size)`: zero-filled arrays of the given
length, default comparator. -/
def mkTQueue (cap : Nat) : TQueue :=
  ⟨List.replicate cap 0, List.replicate cap 0, 0, cap⟩

/-- Embeds `TypedPriorityQueue.grow`: regrow both parallel arrays with
`growTyped`. -/
def growT (q : TQueue) (minCapacity : Nat) : Option TQueue := do
  let es ← growTypedList q.elements minCapacity
  let ps ← growTypedList q.priorities minCapacity
  some { q with elements := es, priorities := ps }

/-- Embeds `TypedPriorityQueue.enqueue`: no priority validation; grow by
`currentSize + 1` when exactly full; sift `{ value, priority }` up from
`currentSize`; always returns `true` (first component). -/
def enqueueT (q : TQueue) (value priority : Int) : Option (Bool × TQueue) := do
  let cs := q.size
  let q1 ← if cs = q.elements.length then growT q (cs + 1) else some q
  let (es, ps) ← upT (cs + 1) q1.elements q1.priorities ⟨value, priority, 0⟩ cs
  some (true, { q1 with elements := es, priorities := ps, size := cs + 1 })

/-- Embeds `TypedPriorityQueue.removeRootNode`: throws when the parallel
arrays are desynchronised, moves the last entry of both arrays to the
root, sifts it down with the decremented size, and zeroes the vacated
slots of both arrays. -/
def removeRootNodeT (q : TQueue) : Option TQueue :=
  if q.size = 0 then some q
  else if q.elements.length ≠ q.priorities.length then none
  else
    let lastIdx := q.size - 1
    if lastIdx > 0 then do
      let lv ← q.elements.get? lastIdx
      let lp ← q.priorities.get? lastIdx
      let es0 := q.elements.set 0 lv
      let ps0 := q.priorities.set 0 lp
      let rv ← es0.get? 0
      let rp ← ps0.get? 0
      let (es, ps) ← downT (lastIdx + 1) es0 ps0 lastIdx ⟨rv, rp, 0⟩ 0
      some { q with elements := es.set lastIdx 0, priorities := ps.set lastIdx 0,
                    size := lastIdx }
    else
      some { q with elements := q.elements.set lastIdx 0,
                    priorities := q.priorities.set lastIdx 0, size := lastIdx }

/-- Embeds `TypedPriorityQueue.pop`. -/
def popT (q : TQueue) : Option (Option TNode × TQueue) :=
  if q.size = 0 then some (none, q)
  else do
    let v ← q.elements.get? 0
    let p ← q.priorities.get? 0
    let q' ← removeRootNodeT q
    some (some ⟨v, p, 0⟩, q')

/-- Embeds `TypedPriorityQueue.dequeue`. -/
def dequeueT (q : TQueue) : Option (Option Int × TQueue) :=
  if q.size = 0 then some (none, q)
  else do
    let v ← q.elements.get? 0
    let q' ← removeRootNodeT q
    some (some v, q')

/-- Embeds `TypedPriorityQueue.clone`: allocate a fresh queue with the
constructor's `_defaultSize` capacity and `TypedArray.set` both arrays
into it — a `RangeError` (`none`) when the source arrays have grown
longer than `_defaultSize`. -/
def cloneT (q : TQueue) : Option TQueue := do
  let es ← typedSet (List.replicate q.defaultSize 0) q.elements
  let ps ← typedSet (List.replicate q.defaultSize 0) q.priorities
  some ⟨es, ps, q.size, q.defaultSize⟩

/-- Pop loop of the `dequeue = true` branch of
`TypedPriorityQueue.priorityAt`. -/
def priorityAtLoopT : Nat → TQueue → Int → Option Int
  | 0, q, _ => if q.size = 0 then some maxValue else none
  | fuel + 1, q, i =>
    if q.size = 0 then some maxValue
    else do
      let (n, q') ← popT q
      if i = 0 then some ((n.map TNode.priority).getD maxValue)
      else priorityAtLoopT fuel q' (i - 1)

/-- Embeds `TypedPriorityQueue.priorityAt`: sentinel when out of range,
direct read of `this._priorities[index]` when `!dequeue || index === 0`,
otherwise clone and pop. -/
def priorityAtT (q : TQueue) (index : Nat) (dequeue : Bool) : Option Int :=
  if index ≥ q.size then some maxValue
  else if !dequeue || index = 0 then q.priorities.get? index
  else do
    let c ← cloneT q
    priorityAtLoopT c.size c (index : Int)

/-! ### Stable typed engine (`src/stable.typed.pq.ts`)

The class resolves `_up` to `upWithPriorities` and `_down` to
`downWithPriorities` (the extra arguments passed at the call sites are
ignored by those two-array primitives), so sift moves touch the element
and priority arrays but not the stability-index array; only
`removeRootNode` moves an index entry explicitly, and `_heapify` uses
`heapifyWithPrioritiesAndIndices`. -/

/-- Heap entry view of the stable engine:
`{ value, priority, nindex, sindex }`. -/
structure SNode where
  value : Int
  priority : Int
  nindex : Nat
  sindex : Int
deriving DecidableEq, Repr

/-- Default comparator of `StableTypedPriorityQueue`: ascending priority,
ties broken by `a.sindex < b.sindex ? -1 : 1`. -/
def cmpS (a b : SNode) : Int :=
  if a.priority < b.priority then -1
  else if a.priority > b.priority then 1
  else if a.sindex < b.sindex then -1 else 1

/-- State of a `StableTypedPriorityQueue`: the two parallel numeric
arrays, the `BigInt64Array` of stability indices, the logical size, the
next stability counter `_sindex`, and the constructor capacity. -/
structure SQueue where
  elements : List Int
  priorities : List Int
  indices : List Int
  size : Nat
  sindex : Int
  defaultSize : Nat
deriving DecidableEq, Repr

/-- Embeds `upWithPriorities` of `src/primitive.ts` as instantiated by
`StableTypedPriorityQueue._up`: the parent view `{ ...node, ... }`
inherits the sifted node's own `sindex` (the spread copies it), and
moves write the element and priority arrays only — the stability array
is never touched. -/
def upS : Nat → List Int → List Int → SNode → Nat → Option (List Int × List Int)
  | _, es, ps, node, 0 => some (es.set 0 node.value, ps.set 0 node.priority)
  | 0, _, _, _, _ + 1 => none
  | fuel + 1, es, ps, node, i + 1 => do
    let pIdx := parentN (i + 1)
    let pv ← es.get? pIdx
    let pp ← ps.get? pIdx
    let parentNode : SNode := { node with value := pv, priority := pp, nindex := pIdx }
    if cmpS node parentNode ≥ 0 then
      some (es.set (i + 1) node.value, ps.set (i + 1) node.priority)
    else
      upS fuel (es.set (i + 1) parentNode.value) (ps.set (i + 1) parentNode.priority)
        node parentNode.nindex

/-- Embeds `upWithPrioritiesAndIndices` of `src/primitive.ts` (the
three-array primitive that does move value, priority and stability index
as one unit); `StableTypedPriorityQueue._up` does not call it. -/
def upWithIdx :
    Nat → List Int → List Int → List Int → SNode → Nat →
      Option (List Int × List Int × List Int)
  | _, es, ps, idx, node, 0 =>
    some (es.set 0 node.value, ps.set 0 node.priority, idx.set 0 node.sindex)
  | 0, _, _, _, _, _ + 1 => none
  | fuel + 1, es, ps, idx, node, i + 1 => do
    let pIdx := parentN (i + 1)
    let pv ← es.get? pIdx
    let pp ← ps.get? pIdx
    let psi ← idx.get? pIdx
    let parentNode : SNode := ⟨pv, pp, pIdx, psi⟩
    if cmpS node parentNode ≥ 0 then
      some (es.set (i + 1) node.value, ps.set (i + 1) node.priority,
        idx.set (i + 1) node.sindex)
    else
      upWithIdx fuel (es.set (i + 1) parentNode.value)
        (ps.set (i + 1) parentNode.priority) (idx.set (i + 1) parentNode.sindex)
        node parentNode.nindex

/-- One candidate step of the minimum-child scan of `downWithPriorities`
at `SNode`; both candidate views inherit the sifted node's `sindex`. -/
def bestChildStepS (es ps : List Int) (node : SNode) (size : Nat)
    (best : Nat × Int × Int) (i : Nat) : Option (Nat × Int × Int) :=
  if i < size then do
    let v ← es.get? i
    let p ← ps.get? i
    if cmpS { node with value := v, priority := p, nindex := i }
        { node with value := best.2.1, priority := best.2.2, nindex := best.1 } < 0 then
      some (i, v, p)
    else some best
  else some best

/-- Minimum child among indices `c .. c+3` below `size`, stable engine. -/
def bestChildS (es ps : List Int) (node : SNode) (size c : Nat) :
    Option (Nat × Int × Int) := do
  let v0 ← es.get? c
  let p0 ← ps.get? c
  let b1 ← bestChildStepS es ps node size (c, v0, p0) (c + 1)
  let b2 ← bestChildStepS es ps node size b1 (c + 2)
  bestChildStepS es ps node size b2 (c + 3)

/-- Embeds `downWithPriorities` as instantiated by
`StableTypedPriorityQueue._down`: moves touch the element and priority
arrays only, never the stability array. -/
def downS : Nat → List Int → List Int → Nat → SNode → Nat → Option (List Int × List Int)
  | 0, _, _, _, _, _ => none
  | fuel + 1, es, ps, size, node, i =>
    if childN i < size then do
      let best ← bestChildS es ps node size (childN i)
      if cmpS { node with nindex := i }
          { node with value := best.2.1, priority := best.2.2, nindex := best.1 } ≤ 0 then
        some (es.set i node.value, ps.set i node.priority)
      else
        downS fuel (es.set i best.2.1) (ps.set i best.2.2) size node best.1
    else some (es.set i node.value, ps.set i node.priority)

/-- Embeds the `StableTypedPriorityQueue` constructor: zero-filled
element, priority and index arrays of the given capacity, counter `0`,
default stable comparator. -/
def mkSQueue (cap : Nat) : SQueue :=
  ⟨List.replicate cap 0, List.replicate cap 0, List.replicate cap 0, 0, 0, cap⟩

/-- Embeds `StableTypedPriorityQueue.grow`: regrow all three arrays. -/
def growS (q : SQueue) (minCapacity : Nat) : Option SQueue := do
  let es ← growTypedList q.elements minCapacity
  let ps ← growTypedList q.priorities minCapacity
  let idx ← growTypedList q.indices minCapacity
  some { q with elements := es, priorities := ps, indices := idx }

/-- Embeds `StableTypedPriorityQueue.enqueue`: no priority validation;
grow by `this._elements.length * 2` when `currentSize >= length`; write
the fresh stability counter into `indices[currentSize]` and bump the
counter; then `_up` (which moves only the element and priority arrays)
on `{ value, priority, sindex }` from `currentSize`; returns `true`. -/
def enqueueS (q : SQueue) (value priority : Int) : Option (Bool × SQueue) := do
  let cs := q.size
  let q1 ← if cs ≥ q.elements.length then growS q (q.elements.length * 2) else some q
  let idx := q1.indices.set cs q1.sindex
  let si ← idx.get? cs
  let (es, ps) ← upS (cs + 1) q1.elements q1.priorities ⟨value, priority, 0, si⟩ cs
  some (true, { q1 with elements := es, priorities := ps, indices := idx,
                        size := cs + 1, sindex := q1.sindex + 1 })

/-- Embeds `StableTypedPriorityQueue.removeRootNode`: throws when the
element and priority arrays are desynchronised; moves the last entry of
all three arrays to the root, sifts down with `_down` (which moves only
two of them), and zeroes the vacated slots of all three arrays. -/
def removeRootNodeS (q : SQueue) : Option SQueue :=
  if q.size = 0 then some q
  else if q.elements.length ≠ q.priorities.length then none
  else
    let lastIdx := q.size - 1
    if lastIdx > 0 then do
      let lv ← q.elements.get? lastIdx
      let lp ← q.priorities.get? lastIdx
      let li ← q.indices.get? lastIdx
      let es0 := q.elements.set 0 lv
      let ps0 := q.priorities.set 0 lp
      let idx0 := q.indices.set 0 li
      let rv ← es0.get? 0
      let rp ← ps0.get? 0
      let ri ← idx0.get? 0
      let (es, ps) ← downS (lastIdx + 1) es0 ps0 lastIdx ⟨rv, rp, 0, ri⟩ 0
      some { q with elements := es.set lastIdx 0, priorities := ps.set lastIdx 0,
                    indices := idx0.set lastIdx 0, size := lastIdx }
    else
      some { q with elements := q.elements.set lastIdx 0,
                    priorities := q.priorities.set lastIdx 0,
                    indices := q.indices.set lastIdx 0, size := lastIdx }

/-- Embeds `StableTypedPriorityQueue.pop`: captures value, priority and
stability index of the root slot, then removes the root. -/
def popS (q : SQueue) : Option (Option SNode × SQueue) :=
  if q.size = 0 then some (none, q)
  else do
    let v ← q.elements.get? 0
    let p ← q.priorities.get? 0
    let si ← q.indices.get? 0
    let q' ← removeRootNodeS q
    some (some ⟨v, p, 0, si⟩, q')

/-- Embeds `StableTypedPriorityQueue.dequeue`: captures the root element
value, then removes the root. -/
def dequeueS (q : SQueue) : Option (Option Int × SQueue) :=
  if q.size = 0 then some (none, q)
  else do
    let v ← q.elements.get? 0
    let q' ← removeRootNodeS q
    some (some v, q')

/-- Drains a stable queue by repeated `dequeue`, collecting the returned
values; fuel is the queue size at the first call. -/
def drainS : Nat → SQueue → Option (List Int)
  | 0, _ => some []
  | fuel + 1, q =>
    if q.size = 0 then some []
    else do
      let (v, q') ← dequeueS q
      let rest ← drainS fuel q'
      some (v.getD 0 :: rest)

/-- Embeds `StableTypedPriorityQueue.clone`: fresh queue at capacity
`_defaultSize`, then `TypedArray.set` of all three arrays (a `RangeError`
when the queue has grown beyond `_defaultSize`), copying size and
stability counter. -/
def cloneS (q : SQueue) : Option SQueue := do
  let es ← typedSet (List.replicate q.defaultSize 0) q.elements
  let ps ← typedSet (List.replicate q.defaultSize 0) q.priorities
  let idx ← typedSet (List.replicate q.defaultSize 0) q.indices
  some ⟨es, ps, idx, q.size, q.sindex, q.defaultSize⟩

/-- Pop loop of the `dequeue = true` branch of
`StableTypedPriorityQueue.priorityAt`. -/
def priorityAtLoopS : Nat → SQueue → Int → Option Int
  | 0, q, _ => if q.size = 0 then some maxValue else none
  | fuel + 1, q, i =>
    if q.size = 0 then some maxValue
    else do
      let (n, q') ← popS q
      if i = 0 then some ((n.map SNode.priority).getD maxValue)
      else priorityAtLoopS fuel q' (i - 1)

/-- Embeds `StableTypedPriorityQueue.priorityAt`: sentinel when out of
range, direct read of `this._priorities[index]` when
`!dequeue || index === 0`, otherwise clone and pop. -/
def priorityAtS (q : SQueue) (index : Nat) (dequeue : Bool) : Option Int :=
  if index ≥ q.size then some maxValue
  else if !dequeue || index = 0 then q.priorities.get? index
  else do
    let c ← cloneS q
    priorityAtLoopS c.size c (index : Int)

/-! ### Concrete scenario states used by the claim theorems -/

/-- Node-based queue holding (value 10, priority 1) … (value 50, priority
5), built by five `enqueue` calls on `new PriorityQueue()`. -/
def fiveQueue : Option BQueue := do
  let q1 ← enqueueB ⟨[], 0⟩ 10 1
  let q2 ← enqueueB q1 20 2
  let q3 ← enqueueB q2 30 3
  let q4 ← enqueueB q3 40 4
  enqueueB q4 50 5

/-- The state of `fiveQueue` after `remove(10)`. -/
def fiveQueueRemoved : Option BQueue := do
  let q ← fiveQueue
  let (_, q') ← removeB q 10
  some q'

/-- Priorities returned by draining `fiveQueueRemoved` with repeated
`pop`. -/
def fiveQueueRemovedDrain : Option (List (Option Int)) := do
  let q ← fiveQueueRemoved
  let ds ← drainB q.size q
  some (ds.map fun n => n.map BNode.priority)

/-- Stable typed queue after `enqueue(1,5); enqueue(2,3); enqueue(3,4);
enqueue(4,3)` on `new StableTypedPriorityQueue(backend, 10)`. -/
def c2Queue : Option SQueue := do
  let (_, q1) ← enqueueS (mkSQueue 10) 1 5
  let (_, q2) ← enqueueS q1 2 3
  let (_, q3) ← enqueueS q2 3 4
  let (_, q4) ← enqueueS q3 4 3
  some q4

/-- Values returned by the four successive `dequeue` calls on `c2Queue`. -/
def c2Drain : Option (List Int) := do
  let q ← c2Queue
  drainS q.size q

/-- Stable typed queue after `enqueue(1,5); enqueue(2,3)` on
`new StableTypedPriorityQueue(backend, 10)`. -/
def c4Queue : Option SQueue := do
  let (_, q1) ← enqueueS (mkSQueue 10) 1 5
  let (_, q2) ← enqueueS q1 2 3
  some q2

/-- Replay of the second enqueue of `c4Queue` with the three-array
primitive `upWithPrioritiesAndIndices` in place of the `upWithPriorities`
call that `_up` actually makes: the resulting element, priority and
stability arrays. -/
def c4UnitMove : Option (List Int × List Int × List Int) := do
  let (_, q1) ← enqueueS (mkSQueue 10) 1 5
  let idx := q1.indices.set 1 q1.sindex
  let si ← idx.get? 1
  upWithIdx 2 q1.elements q1.priorities idx ⟨2, 3, 0, si⟩ 1

/-- Flat typed queue after `enqueue(1,1); enqueue(2,2)` on
`new TypedPriorityQueue(backend, 1)`; the second enqueue grows the
backing arrays from length 1 to length 5. -/
def c6Queue : Option TQueue := do
  let (_, q1) ← enqueueT (mkTQueue 1) 1 1
  let (_, q2) ← enqueueT q1 2 2
  some q2

/-- Node-based queue after a single `enqueue(1, 5)` on
`new PriorityQueue()`; growth leaves three holes behind the entry. -/
def c8Queue : Option BQueue := enqueueB ⟨[], 0⟩ 1 5

/-! ### Claim theorems -/

/-- Claim C1: draining a node-based `PriorityQueue` built with its
default comparator by enqueue/dequeue/remove operations is claimed to
yield priorities in non-decreasing order.  Refutation on the code: after
`enqueue` of priorities 1,2,3,4,5 and `remove(10)` (the priority-1
root), draining returns priorities `[5, 2, 3, 4]`, which is not
non-decreasing — `remove` sifts the relocated last entry in the inverted
direction and leaves the heap out of order. -/
theorem c1_remove_breaks_drain_order :
    fiveQueueRemovedDrain = some [some 5, some 2, some 3, some 4] ∧
    ¬ List.Chain' (· ≤ ·) [(5 : Int), 2, 3, 4] := by
  constructor
  · decide
  · norm_num [List.chain'_cons]

/-- Claim C2: on an initially empty `StableTypedPriorityQueue` with the
default comparator, `enqueue(1,5); enqueue(2,3); enqueue(3,4);
enqueue(4,3)` followed by four `dequeue` calls returns `[2, 4, 3, 1]` —
value 2 before value 4 despite the shared priority 3. -/
theorem c2_stable_dequeue_order : c2Drain = some [2, 4, 3, 1] := by
  decide

/-- Claim C3: `remove` is claimed to sift the relocated last entry up
when it sorts before the removed entry and down otherwise.  Refutation
on the code: removing the priority-1 root of `fiveQueue` relocates the
last entry (priority 5), which does not sort before the removed entry
(`cmpB` is nonnegative), so the claim prescribes a sift down; the code
instead takes the `_up` branch, leaving priority 5 at the root above its
priority-2 child — the inverted direction of
`src/pq.ts` line 259. -/
theorem c3_remove_sift_direction_inverted :
    cmpB ⟨50, 5, 4⟩ ⟨10, 1, 0⟩ ≥ 0 ∧
    (fiveQueueRemoved.bind fun q => (q.elements.getD 0 none).map BNode.priority)
      = some 5 ∧
    (fiveQueueRemoved.bind fun q => (q.elements.getD 1 none).map BNode.priority)
      = some 2 ∧
    cmpB ⟨20, 2, 1⟩ ⟨50, 5, 0⟩ < 0 := by
  refine ⟨by decide, by decide, by decide, by decide⟩

/-- Claim C4: every sift relocation in `StableTypedPriorityQueue` is
claimed to move value, priority and stability index as one unit.
Refutation on the code: after `enqueue(1,5); enqueue(2,3)` the sift-up
moved the entry `(2, 3)` — which was assigned stability index 1 — into
slot 0, yet the stability array still reads `[0, 1]`: `_up` calls the
two-array `upWithPriorities`, which never touches the index array.
Replaying the same sift with the three-array
`upWithPrioritiesAndIndices` yields the lockstep result `[1, 0]`. -/
theorem c4_stability_indices_not_relocated :
    (c4Queue.map fun q => q.elements.take 2) = some [2, 1] ∧
    (c4Queue.map fun q => q.priorities.take 2) = some [3, 5] ∧
    (c4Queue.map fun q => q.indices.take 2) = some [0, 1] ∧
    (c4UnitMove.map fun r => r.2.2.take 2) = some [1, 0] := by
  refine ⟨by decide, by decide, by decide, by decide⟩

/-- Claim C5, counterexample: `enqueue` with a `NaN` priority is claimed
to return `false`; on the code `typeof NaN === "number"`, so the guard
of `PriorityQueue.enqueue` passes and the call returns `true`. -/
theorem c5_nan_priority_accepted :
    (enqueueBJs ⟨[], 0⟩ 7 .nan).1 = true := by
  decide

/-- Claim C6: `clone()` is claimed to return an equal-drain independent
queue for every queue in every engine.  Refutation on the code: after
two enqueues on a `TypedPriorityQueue` constructed with capacity 1, the
backing arrays have grown to length 5, and `clone()` — which allocates
at `_defaultSize` and copies with `TypedArray.set` — throws a
`RangeError` instead of returning a queue. -/
theorem c6_clone_throws_after_growth :
    c6Queue = some ⟨[1, 2, 0, 0, 0], [1, 2, 0, 0, 0], 2, 1⟩ ∧
    (c6Queue.bind fun q => cloneT q) = none := by
  refine ⟨by decide, by decide⟩

/-- Claim C8: `remove` of an absent value is claimed to return `false`
without raising an exception on every reachable state.  Refutation on
the code: after a single `enqueue(1,5)` the backing array has capacity 4
with three holes, and `remove(99)` throws a `TypeError` — its
`findIndex` callback dereferences `node.value` on the hole at index 1.
`indexOf(99)`, whose callback guards against holes, returns `-1` as
claimed. -/
theorem c8_remove_absent_throws :
    c8Queue = some ⟨[some ⟨1, 5, 0⟩, none, none, none], 1⟩ ∧
    (c8Queue.bind fun q => removeB q 99) = none ∧
    (c8Queue.bind fun q => indexOfB q 99 false) = some (-1) := by
  refine ⟨by decide, by decide, by decide⟩

/-- Claim C7, counterexample: the grown capacity is claimed to be
`max(2c, c+4, m)` capped at `2^32 - 1`; at `c = 2^32 - 2`,
`m = 2^32 - 1` the code yields `c + 4 = 2^32 + 2`, exceeding the cap —
the cap is applied before the `max` with `c + 4` and `m`, not after. -/
theorem c7_growth_cap_counterexample :
    growCapacity (2 ^ 32 - 2) (2 ^ 32 - 1) = 2 ^ 32 + 2 ∧
    2 ^ 32 - 1 < 2 ^ 32 + 2 := by
  refine ⟨by decide, by decide⟩

/-- Claim C9, counterexample: `parent(i) = ⌊(i-1)/4⌋` is claimed for all
`1 ≤ i ≤ 2^32 - 2`; at `i = 2^31 + 1` the JS shift wraps `i - 1 = 2^31`
to `-2^31` and the code returns `-2^29`, not `2^29`. -/
theorem c9_parent_int32_overflow :
    jsParent (2 ^ 31 + 1) = -(2 ^ 29) ∧
    ((2 ^ 31 + 1 : Int) - 1) / 4 = 2 ^ 29 ∧
    (-(2 ^ 29) : Int) ≠ 2 ^ 29 := by
  refine ⟨by decide, by decide, by decide⟩

/-- Claim C5, amended: the node-based `enqueue` returns `false` iff the
priority argument is not of JS type "number" — a genuine number or `NaN`
is accepted and the call returns `true`, and on `false` the queue is
untouched — while the flat typed and stable typed engines' `enqueue`
always returns `true`. -/
theorem c5_enqueue_return_values :
    (∀ (q : BQueue) (v x : Int), (enqueueBJs q v (.num x)).1 = true) ∧
    (∀ (q : BQueue) (v : Int), (enqueueBJs q v .nan).1 = true) ∧
    (∀ (q : BQueue) (v : Int), enqueueBJs q v .notNum = (false, some q)) ∧
    (∀ (q : TQueue) (v p : Int) (r : Bool × TQueue),
      enqueueT q v p = some r → r.1 = true) ∧
    (∀ (q : SQueue) (v p : Int) (r : Bool × SQueue),
      enqueueS q v p = some r → r.1 = true) := by
  refine ⟨fun q v x => rfl, fun q v => rfl, fun q v => rfl, ?_, ?_⟩
  · intro q v p r h
    simp only [enqueueT] at h
    split at h
    · simp only [Option.bind_eq_bind, Option.bind_eq_some] at h
      obtain ⟨q1, -, ⟨es, ps⟩, -, h⟩ := h
      exact (Option.some.inj h) ▸ rfl
    · simp only [Option.bind_eq_bind, Option.some_bind, Option.bind_eq_some] at h
      obtain ⟨⟨es, ps⟩, -, h⟩ := h
      exact (Option.some.inj h) ▸ rfl
  · intro q v p r h
    simp only [enqueueS] at h
    split at h
    · simp only [Option.bind_eq_bind, Option.bind_eq_some] at h
      obtain ⟨q1, -, si, -, ⟨es, ps⟩, -, h⟩ := h
      exact (Option.some.inj h) ▸ rfl
    · simp only [Option.bind_eq_bind, Option.some_bind, Option.bind_eq_some] at h
      obtain ⟨si, -, ⟨es, ps⟩, -, h⟩ := h
      exact (Option.some.inj h) ▸ rfl

/-- Witness for the amended Claim C5 theorem: its two conditional parts
applied to concrete enqueues on fresh typed and stable queues. -/
theorem c5_enqueue_return_values_witness :
    ((true, (⟨[9, 0, 0, 0], [9, 0, 0, 0], 1, 4⟩ : TQueue)) : Bool × TQueue).1
      = true ∧
    ((true, (⟨[9, 0, 0, 0], [9, 0, 0, 0], [0, 0, 0, 0], 1, 1, 4⟩ : SQueue)) :
      Bool × SQueue).1 = true :=
  ⟨c5_enqueue_return_values.2.2.2.1 (mkTQueue 4) 9 9 _ (by decide),
   c5_enqueue_return_values.2.2.2.2 (mkSQueue 4) 9 9 _ (by decide)⟩

/-- Claim C7, amended: the grown capacity is
`max(min(2c, 2^32 - 1), c + 4, m)` — the `2^32 - 1` cap applies only to
the doubled term, so results above the cap are possible when `c + 4` or
`m` exceeds it; `growTyped` copies the previous entries into the front
of the zero-filled new storage, and the node engine's `_grow` keeps them
in place. -/
theorem c7_growth_formula :
    (∀ len m : Nat, growCapacity len m =
      max (min (2 * len) (2 ^ 32 - 1)) (max (len + 4) m)) ∧
    (∀ (l : List Int) (m : Nat),
      growTypedList l m =
        some (l ++ List.replicate (growCapacity l.length m - l.length) 0)) ∧
    (∀ (es : List (Option BNode)) (m : Nat), (growB es m).take es.length = es) := by
  refine ⟨?_, ?_, ?_⟩
  · intro len m
    simp only [growCapacity]
    split_ifs <;> omega
  · intro l m
    have hl : l.length ≤ growCapacity l.length m := by
      simp only [growCapacity]; split_ifs <;> omega
    simp [growTypedList, typedSet, hl, List.drop_replicate]
  · intro es m
    simp [growB, List.take_left]

/-- Claim C9, amended: the int32 shift arithmetic of `parent` and
`child` agrees with the exact formulas on the ranges `1 ≤ i ≤ 2^31`
(parent) and `0 ≤ i < 2^29, 0 ≤ k < 4` (child); beyond them the 32-bit
wrap produces different (negative) values, as the counterexample at
`i = 2^31 + 1` shows. -/
theorem c9_index_arithmetic_in_range :
    (∀ i : Int, 1 ≤ i → i ≤ 2 ^ 31 → jsParent i = (i - 1) / 4) ∧
    (∀ i k : Int, 0 ≤ i → i < 2 ^ 29 → 0 ≤ k → k < 4 →
      jsChild i k = 4 * i + k + 1) := by
  have h32 : ∀ x : Int, -(2 ^ 31) ≤ x → x < 2 ^ 31 → toInt32 x = x := by
    intro x h1 h2
    have hm : (x + 2 ^ 31) % 2 ^ 32 = x + 2 ^ 31 :=
      Int.emod_eq_of_lt (by omega) (by omega)
    simp only [toInt32]
    omega
  constructor
  · intro i h1 h2
    rw [jsParent, h32 (i - 1) (by omega) (by omega),
      Int.fdiv_eq_ediv _ (by omega)]
  · intro i k h1 h2 h3 h4
    rw [jsChild, h32 i (by omega) (by omega), h32 (4 * i) (by omega) (by omega)]

/-- Witness for the amended Claim C9 theorem: both parts applied at the
concrete indices 5 and (3, 2). -/
theorem c9_index_arithmetic_witness :
    jsParent 5 = (5 - 1) / 4 ∧ jsChild 3 2 = 4 * 3 + 2 + 1 :=
  ⟨c9_index_arithmetic_in_range.1 5 (by norm_num) (by norm_num),
   c9_index_arithmetic_in_range.2 3 2 (by norm_num) (by norm_num) (by norm_num)
    (by norm_num)⟩

/-- Claim C10: in all three engines, `priorityAt(0, true)` takes the
`index === 0` shortcut past the clone-and-drain path and returns the
priority stored at storage index 0, so it coincides with
`priorityAt(0, false)` on every non-empty queue. -/
theorem c10_priorityAt_zero_bypass :
    (∀ q : BQueue, 0 < q.size →
      priorityAtB q 0 true = (q.elements.getD 0 none).map BNode.priority ∧
      priorityAtB q 0 false = (q.elements.getD 0 none).map BNode.priority) ∧
    (∀ q : TQueue, 0 < q.size →
      priorityAtT q 0 true = q.priorities.get? 0 ∧
      priorityAtT q 0 false = q.priorities.get? 0) ∧
    (∀ q : SQueue, 0 < q.size →
      priorityAtS q 0 true = q.priorities.get? 0 ∧
      priorityAtS q 0 false = q.priorities.get? 0) := by
  refine ⟨fun q h => ?_, fun q h => ?_, fun q h => ?_⟩ <;>
    have hns : ¬(0 ≥ q.size) := by omega
  · exact ⟨by simp [priorityAtB, hns], by simp [priorityAtB, hns]⟩
  · exact ⟨by simp [priorityAtT, hns], by simp [priorityAtT, hns]⟩
  · exact ⟨by simp [priorityAtS, hns], by simp [priorityAtS, hns]⟩

/-- Witness for the Claim C10 theorem: the root-bypass equalities at
concrete one-element queues of the three engines. -/
theorem c10_priorityAt_zero_bypass_witness :
    priorityAtB ⟨[some ⟨1, 5, 0⟩], 1⟩ 0 true
      = (([some (⟨1, 5, 0⟩ : BNode)] : List (Option BNode)).getD 0 none).map
          BNode.priority ∧
    priorityAtT ⟨[1], [5], 1, 1⟩ 0 true = ([5] : List Int).get? 0 ∧
    priorityAtS ⟨[1], [5], [0], 1, 1, 1⟩ 0 true = ([5] : List Int).get? 0 :=
  ⟨(c10_priorityAt_zero_bypass.1 _ (by decide)).1,
   (c10_priorityAt_zero_bypass.2.1 _ (by decide)).1,
   (c10_priorityAt_zero_bypass.2.2 _ (by decide)).1⟩

end PqTs
